import Mathlib

/-!
Shallow embedding of `src/main.py` (and the parts of `src/metadata.py` it
drives) from connor-kress/youtube-playlist-converter: the format utilities,
the destination resolver `get_and_validate_dir_path`, the per-item download
step of `download_playlist` (including its `KeyboardInterrupt` cleanup
handlers and those of `download_mp3`), and the orchestrator loop's
statistics accounting.

External collaborators (pytube stream resolution, the HTTP thumbnail fetch,
moviepy transcoding, mutagen tagging, `pathvalidate.sanitize_filename`) are
modelled as inputs: each playlist item carries the result its stream query
would produce, and sanitization is an arbitrary function parameter.
-/

/-! ## Format utilities (`format_size`, `format_time`) -/

/-- The unit picked by `format_size` (main.py lines 23-32): 0 = bytes,
1 = KiB, 2 = MiB, 3 = GiB, following the exact branch structure of the
source. -/
def format_size_unit (size : Nat) : Nat :=
  if size < 1024 then 0
  else if size < 1024 ^ 2 then 1
  else if size < 1024 ^ 3 then 2
  else 3

/-- The numeric value `format_size` would display in unit `u` (the source
renders `size/1024**u` with `%.2f`; the float rendering is abstracted to
the exact rational). -/
def format_size_value_at (size u : Nat) : ℚ :=
  (size : ℚ) / ((1024 : ℚ) ^ u)

/-- The numeric value `format_size` displays, in the unit it picks. -/
def format_size_value (size : Nat) : ℚ :=
  format_size_value_at size (format_size_unit size)

/-- The magnitude represented by `format_size`'s output: displayed value
times the byte weight of the chosen unit. -/
def format_size_magnitude (size : Nat) : ℚ :=
  format_size_value size * ((1024 : ℚ) ^ format_size_unit size)

/-- The `divmod` chain of `format_time` (main.py lines 37-38):
`(hours, mins, secs)`. -/
def time_decomp (secs : Nat) : Nat × Nat × Nat :=
  (secs / 60 / 60, secs / 60 % 60, secs % 60)

/-- Python's `sep.join(parts)`. -/
def joinParts (sep : String) : List String → String
  | [] => ""
  | [a] => a
  | a :: b :: rest => a ++ sep ++ joinParts sep (b :: rest)

/-- Model of `format_time` (main.py lines 35-49): builds the list of parts and joins
them, omitting the hours part when zero and the minutes part when both
hours and minutes are zero. -/
def format_time (secs : Nat) (long : Bool) : String :=
  match time_decomp secs with
  | (hours, mins, s) =>
    if long then
      joinParts (", ")
        ((if hours ≠ 0 then [toString hours ++ " hours"] else []) ++
         (if hours ≠ 0 ∨ mins ≠ 0 then [toString mins ++ " mins"] else []) ++
         [toString s ++ " secs"])
    else
      joinParts (" ")
        ((if hours ≠ 0 then [toString hours ++ "h"] else []) ++
         (if hours ≠ 0 ∨ mins ≠ 0 then [toString mins ++ "m"] else []) ++
         [toString s ++ "s"])

/-! ## POSIX-style paths and `pathlib` operations

`pathlib.PurePosixPath` is modelled as an absolute-flag plus a list of
components.  Joining with `/` keeps the right operand whenever it is
absolute (the documented `pathlib` behavior: a later absolute path becomes
the new anchor). -/

/-- A `pathlib.Path` value: absolute flag plus components. -/
structure PyPath where
  absolute : Bool
  components : List String
deriving DecidableEq

/-- Append one path component (`p / "c"` for a plain name). -/
def PyPath.child (p : PyPath) (c : String) : PyPath :=
  ⟨p.absolute, p.components ++ [c]⟩

/-- The `/` operator of `pathlib`: an absolute right operand replaces the
left operand entirely. -/
def pyJoin (p q : PyPath) : PyPath :=
  if q.absolute then q else ⟨p.absolute, p.components ++ q.components⟩

/-- Splits a character list at `/` separators. -/
def splitSlashAux (cs : List Char) (cur : List Char) : List (List Char) :=
  match cs with
  | [] => [cur.reverse]
  | c :: rest =>
      if c = '/' then cur.reverse :: splitSlashAux rest []
      else splitSlashAux rest (c :: cur)

/-- The nonempty `/`-separated components of a path string. -/
def pathComponents (s : String) : List String :=
  ((splitSlashAux s.data []).filter (fun c => c ≠ [])).map (fun c => String.mk c)

/-- Whether a string starts with the given character. -/
def startsWithChar (s : String) (c0 : Char) : Bool :=
  match s.data with
  | [] => false
  | c :: _ => c = c0

/-- Model of `str.removeprefix` for a one-character marker that is known to be
present: drops the first character. -/
def dropOneChar (s : String) : String :=
  match s.data with
  | [] => ""
  | _ :: rest => String.mk rest

/-- Model of `pathlib.Path(s)` for a path string: absolute iff the string starts
with `/`. -/
def parsePath (s : String) : PyPath :=
  ⟨startsWithChar s '/', pathComponents s⟩

/-! ## Filesystem state and directory creation -/

/-- The filesystem as seen by the destination resolver: which paths exist
as plain files and which as directories. -/
structure FSState where
  files : List PyPath
  dirs : List PyPath
deriving DecidableEq

/-- Model of `p.is_file()`. -/
def isFileP (fs : FSState) (p : PyPath) : Bool :=
  decide (p ∈ fs.files)

/-- Model of `p.exists()`. -/
def pexists (fs : FSState) (p : PyPath) : Bool :=
  decide (p ∈ fs.files) || decide (p ∈ fs.dirs)

/-- All proper ancestors of a path (shorter component lists with the same
anchor). -/
def strictAncestors (p : PyPath) : List PyPath :=
  (List.range p.components.length).map (fun n => ⟨p.absolute, p.components.take n⟩)

/-- Errors the resolver can surface: the repository's `DownloadingError`
and any uncaught OS-level error from `mkdir`. -/
inductive ResolveError where
  | downloadingError (msg : String)
  | osError
deriving DecidableEq

/-- Model of `p.mkdir()` (no `parents`): fails if the path exists or its parent is
not an existing directory; otherwise records the new directory. -/
def mkdirPlain (fs : FSState) (p : PyPath) : Except ResolveError FSState :=
  if pexists fs p then .error .osError
  else if (⟨p.absolute, p.components.dropLast⟩ : PyPath) ∈ fs.dirs then
    .ok { fs with dirs := p :: fs.dirs }
  else .error .osError

/-- Model of `p.mkdir(parents=True)`: fails if the path exists or some ancestor is
an existing plain file; otherwise records the directory and every missing
ancestor. -/
def mkdirParents (fs : FSState) (p : PyPath) : Except ResolveError FSState :=
  if pexists fs p then .error .osError
  else if (strictAncestors p).any (fun a => decide (a ∈ fs.files)) then .error .osError
  else .ok { fs with
             dirs := p :: (strictAncestors p).filter (fun a => decide (a ∉ fs.dirs)) ++ fs.dirs }

/-- The common tail of `get_and_validate_dir_path` (main.py lines 73-77):
reject an existing plain file, create the directory if absent, return it. -/
def ensureDir (fs : FSState) (p : PyPath) : Except ResolveError (PyPath × FSState) :=
  if isFileP fs p then .error (.downloadingError ("Output path contains a file"))
  else if pexists fs p then .ok (p, fs)
  else
    match mkdirParents fs p with
    | .error e => .error e
    | .ok fs1 => .ok (p, fs1)

/-- Model of `get_and_validate_dir_path` (main.py lines 52-77).  `home` is
`Path.home()`, `cwd` is `Path.cwd()`, `san` models
`pathvalidate.sanitize_filename`. -/
def get_and_validate_dir_path (home cwd : PyPath) (san : String → String)
    (fs : FSState) (output : Option String) (title : String)
    (only_audio : Bool) : Except ResolveError (PyPath × FSState) :=
  match output with
  | none =>
      let type_str := if only_audio then "Music" else "Videos"
      let base_dir := home.child type_str
      if isFileP fs base_dir then
        .error (.downloadingError ("File found at default directory"))
      else
        match (if !pexists fs base_dir then mkdirPlain fs base_dir else .ok fs) with
        | .error e => .error e
        | .ok fs1 => ensureDir fs1 (base_dir.child (san title))
  | some out =>
      if startsWithChar out '~' then
        ensureDir fs (pyJoin home (parsePath (dropOneChar out)))
      else
        let p := parsePath out
        ensureDir fs (if p.absolute then p else pyJoin cwd p)

/-- The path `get_and_validate_dir_path` resolves to, independent of the
filesystem (the resolution of main.py lines 56-72 never reads the
filesystem; only the validity checks and `mkdir` calls do). -/
def resolveDirPath (home cwd : PyPath) (san : String → String)
    (output : Option String) (title : String) (only_audio : Bool) : PyPath :=
  match output with
  | none =>
      (home.child (if only_audio then "Music" else "Videos")).child (san title)
  | some out =>
      if startsWithChar out '~' then pyJoin home (parsePath (dropOneChar out))
      else
        let p := parsePath out
        if p.absolute then p else pyJoin cwd p

/-- Well-formedness of a filesystem state: no path is both a file and a
directory, and every ancestor of an existing path is a directory. -/
def WFfs (fs : FSState) : Prop :=
  (∀ p ∈ fs.files, p ∉ fs.dirs) ∧
  (∀ p ∈ fs.files ++ fs.dirs, ∀ a ∈ strictAncestors p, a ∈ fs.dirs)

instance : DecidablePred WFfs := fun fs => by
  unfold WFfs; infer_instance

/-- Modelled from the spec: the path obtained by substituting the user's
home directory for the `~` marker of a home-relative output string
(section 4.1: "substitute the home directory for the marker"). -/
def specTildeSubstitute (home : PyPath) (out : String) : PyPath :=
  ⟨home.absolute, home.components ++ (parsePath (dropOneChar out)).components⟩

/-! ## The orchestrator loop of `download_playlist` (main.py lines 142-193)

Remote collaborators are modelled as data on each item: `query` is the
result of `vid.streams.filter(...).first()` (which may raise
`AgeRestrictedError`, return no stream, or return a stream), and
`download_size` is the size `stat` would report for the file a successful
download writes.  Network fetches and disk writes are recorded as
effects so that "performs no fetch" is a provable statement. -/

/-- The fields of a pytube `Stream` the loop reads. -/
structure VidStream where
  title : String
  includes_audio_track : Bool
deriving DecidableEq

/-- The result of the stream query for one playlist item. -/
inductive StreamQuery where
  | ageRestricted
  | noStream
  | found (s : VidStream)
deriving DecidableEq

/-- One playlist item together with the responses its external
collaborators would give. -/
structure Item where
  length : Nat
  watch_url : String
  thumbnail_url : String
  query : StreamQuery
  download_size : Nat
deriving DecidableEq

/-- The spec's `ItemOutcome` for one item of the loop. -/
inductive Outcome where
  | downloaded (sz : Nat)
  | alreadyPresent (sz : Nat)
  | skippedAge
  | skippedNoStream
  | skippedNoAudio
deriving DecidableEq

/-- Observable side effects of one loop iteration. -/
inductive Effect where
  | fetchThumbnail (url : String)
  | fetchStreamBytes (title : String)
  | writeFile (nm : String)
deriving DecidableEq

/-- The statistics accumulator of `download_playlist`. -/
structure Stats where
  total_secs : Nat
  bytes_downloaded : Nat
  vids_downloaded : Nat
  total_bytes : Nat
  age_restricted_urls : List String
deriving DecidableEq

/-- The accumulator as initialized at main.py lines 142-146. -/
def initialStats : Stats :=
  ⟨0, 0, 0, 0, []⟩

/-- The destination directory's contents: file name to size on disk. -/
abbrev DirFS := List (String × Nat)

/-- One iteration of the loop body (main.py lines 148-193), without a
cancellation signal: stream query and age-restriction handling, the
no-stream and no-audio skips, length accounting, the already-present
check, and the download with its statistics updates. -/
def itemStep (file_type : String) (only_audio : Bool) (san : String → String)
    (st : Stats) (fs : DirFS) (vid : Item) :
    Outcome × Stats × DirFS × List Effect :=
  match vid.query with
  | .ageRestricted =>
      (.skippedAge,
       { st with age_restricted_urls := st.age_restricted_urls ++ [vid.watch_url] },
       fs, [])
  | .noStream => (.skippedNoStream, st, fs, [])
  | .found s =>
      if only_audio && !s.includes_audio_track then
        (.skippedNoAudio, st, fs, [])
      else
        let st1 := { st with total_secs := st.total_secs + vid.length }
        let fname := san s.title ++ "." ++ file_type
        match fs.lookup fname with
        | some sz =>
            (.alreadyPresent sz,
             { st1 with total_bytes := st1.total_bytes + sz }, fs, [])
        | none =>
            let sz := vid.download_size
            (.downloaded sz,
             { st1 with
               vids_downloaded := st1.vids_downloaded + 1,
               bytes_downloaded := st1.bytes_downloaded + sz,
               total_bytes := st1.total_bytes + sz },
             (fname, sz) :: fs,
             [.fetchThumbnail vid.thumbnail_url, .fetchStreamBytes s.title,
              .writeFile fname])

/-- The result of running the loop over a list of items. -/
structure RunResult where
  stats : Stats
  fs : DirFS
  outcomes : List Outcome
  effects : List Effect
deriving DecidableEq

/-- The loop of main.py lines 148-193 over the remaining items. -/
def runItems (file_type : String) (only_audio : Bool) (san : String → String)
    (st : Stats) (fs : DirFS) : List Item → RunResult
  | [] => ⟨st, fs, [], []⟩
  | vid :: rest =>
      match itemStep file_type only_audio san st fs vid with
      | (o, st1, fs1, es) =>
          let r := runItems file_type only_audio san st1 fs1 rest
          ⟨r.stats, r.fs, o :: r.outcomes, es ++ r.effects⟩

/-- Whether the item's stream query raises `AgeRestrictedError`. -/
def isAgeRestricted (vid : Item) : Bool :=
  match vid.query with
  | .ageRestricted => true
  | _ => false

/-- Whether the item passes both the stream-match check and the
audio-track check, i.e. reaches the `total_secs` accounting at
main.py line 165. -/
def countsTowardLength (only_audio : Bool) (vid : Item) : Bool :=
  match vid.query with
  | .found s => !(only_audio && !s.includes_audio_track)
  | _ => false

/-- Bytes the outcome adds to `total_bytes`. -/
def outcomeBytes : Outcome → Nat
  | .downloaded sz => sz
  | .alreadyPresent sz => sz
  | _ => 0

/-- Bytes the outcome adds to `bytes_downloaded`. -/
def outcomeNewBytes : Outcome → Nat
  | .downloaded sz => sz
  | _ => 0

/-! ## Cancellation during the per-item download (main.py lines 86-102
and 181-188)

`KeyboardInterrupt` can arrive at three windows inside the orchestrator's
`try` block: during `stream.download` (byte fetching), during the
moviepy transcode of the mp3 path (`AudioFileClip`/`write_audiofile`,
after `stream.download` completed, before `temp_path.unlink()`), and
during the metadata call.  The mp4 path has no transcode step, so a
`duringTranscode` point behaves there like no cancellation at all. -/

/-- Where, if anywhere, the cancellation signal fires. -/
inductive CancelPoint where
  | noCancel
  | duringFetch
  | duringTranscode
  | duringTagging
deriving DecidableEq

/-- Which of the two files of one item exist on disk. -/
structure DiskState where
  tempExists : Bool
  finalExists : Bool
deriving DecidableEq

/-- Model of `download_mp3` (main.py lines 90-102) under a cancellation point:
returns the disk state when control leaves the function and whether the
interrupt is propagating.  An interrupt during `stream.download` is
caught, the temp file unlinked, and re-raised; an interrupt during the
transcode has no handler inside `download_mp3`, so the fully downloaded
temp file and a partially written final file are left as they are.
A tagging-time interrupt happens after this function returned. -/
def download_mp3_model (c : CancelPoint) : DiskState × Bool :=
  match c with
  | .duringFetch => (⟨false, false⟩, true)
  | .duringTranscode => (⟨true, true⟩, true)
  | _ => (⟨false, true⟩, false)

/-- Model of `download_mp4` (main.py lines 86-87) under a cancellation point: the
stream is downloaded directly to the final path with no handler, so an
interrupt during the fetch leaves the partial final file.  There is no
transcode step, so `duringTranscode` completes like `noCancel`. -/
def download_mp4_model (c : CancelPoint) : DiskState × Bool :=
  match c with
  | .duringFetch => (⟨false, true⟩, true)
  | _ => (⟨false, true⟩, false)

/-- The orchestrator's `try` block (main.py lines 181-188): run the
download function for `file_type`, then the metadata call; on a
propagating `KeyboardInterrupt` from either, unlink the final file
(`file_path.unlink(missing_ok=True)`) and re-raise.  Returns the disk
state after the block and whether the interrupt propagated out. -/
def downloadTryBlock (file_type : String) (c : CancelPoint) : DiskState × Bool :=
  let r := if file_type = "mp3" then download_mp3_model c else download_mp4_model c
  if r.2 then ({ r.1 with finalExists := false }, true)
  else if c = .duringTagging then ({ r.1 with finalExists := false }, true)
  else (r.1, false)

/-! ## Concrete fixtures used by witnesses and counterexamples -/

/-- A home directory `/home/user`. -/
def homeFix : PyPath := ⟨true, ["home", "user"]⟩

/-- A working directory `/cwd`. -/
def cwdFix : PyPath := ⟨true, ["cwd"]⟩

/-- The filesystem root as a path. -/
def rootFix : PyPath := ⟨true, []⟩

/-- A filesystem holding only the root directory. -/
def fsRootOnly : FSState := ⟨[], [rootFix]⟩

/-- A filesystem with a plain file at `/a` (and the root directory). -/
def fsFileA : FSState := ⟨[⟨true, ["a"]⟩], [rootFix]⟩

/-- A filesystem with a plain file at `/x` (and the root directory). -/
def fsFileX : FSState := ⟨[⟨true, ["x"]⟩], [rootFix]⟩

/-- An age-restricted playlist item. -/
def itemAge : Item :=
  ⟨100, "urlA", "thumbA", .ageRestricted, 0⟩

/-- An item whose stream query finds an audio stream titled `t`. -/
def itemFound : Item :=
  ⟨125, "urlF", "thumbF", .found ⟨"t", true⟩, 7⟩

/-! ## Helper lemmas -/

/-- A path is a proper ancestor of any of its children. -/
theorem mem_strictAncestors_child (p : PyPath) (c : String) :
    p ∈ strictAncestors (p.child c) := by
  unfold strictAncestors PyPath.child
  simp only [List.mem_map, List.mem_range]
  refine ⟨p.components.length, by simp, ?_⟩
  rw [List.take_left]

/-- Appending a component changes the path. -/
theorem child_ne_self (p : PyPath) (c : String) : p.child c ≠ p := by
  unfold PyPath.child
  intro h
  have h2 := congrArg (fun q : PyPath => q.components.length) h
  simp at h2

/-- What a successful `mkdir` without parents guarantees. -/
theorem mkdirPlain_ok (fs : FSState) (p : PyPath) (fs1 : FSState)
    (h : mkdirPlain fs p = .ok fs1) :
    fs1.files = fs.files ∧ p ∈ fs1.dirs ∧ ∀ d ∈ fs.dirs, d ∈ fs1.dirs := by
  unfold mkdirPlain at h
  split_ifs at h with h1 h2
  · simp only [Except.ok.injEq] at h
    rw [← h]
    exact ⟨rfl, by simp, fun d hd => by simp [hd]⟩

/-- What a successful `ensureDir` guarantees about its result. -/
theorem ensureDir_ok (fs : FSState) (p q : PyPath) (fs1 : FSState)
    (h : ensureDir fs p = .ok (q, fs1)) :
    q = p ∧ fs1.files = fs.files ∧ p ∈ fs1.dirs ∧ p ∉ fs.files ∧
    ∀ d ∈ fs.dirs, d ∈ fs1.dirs := by
  unfold ensureDir at h
  split_ifs at h with h1 h2
  · simp only [Except.ok.injEq, Prod.mk.injEq] at h
    obtain ⟨hq, hfs⟩ := h
    have hnf : p ∉ fs.files := by
      unfold isFileP at h1
      simpa using h1
    have hd : p ∈ fs.dirs := by
      unfold pexists at h2
      simp only [Bool.or_eq_true, decide_eq_true_eq] at h2
      rcases h2 with h2 | h2
      · exact absurd h2 hnf
      · exact h2
    rw [← hq, ← hfs]
    exact ⟨rfl, rfl, hd, hnf, fun d hd2 => hd2⟩
  · have hnf : p ∉ fs.files := by
      unfold isFileP at h1
      simpa using h1
    cases hmk : mkdirParents fs p with
    | error e => rw [hmk] at h; simp at h
    | ok fsm =>
        rw [hmk] at h
        simp only [Except.ok.injEq, Prod.mk.injEq] at h
        obtain ⟨hq, hfs⟩ := h
        unfold mkdirParents at hmk
        split_ifs at hmk with m1
        simp only [Except.ok.injEq] at hmk
        rw [← hq, ← hfs, ← hmk]
        exact ⟨rfl, rfl, by simp, hnf, fun d hd2 => by simp [hd2]⟩

/-- On a filesystem where the target already is a directory, `ensureDir`
returns it unchanged. -/
theorem ensureDir_existing (fs : FSState) (p : PyPath)
    (h1 : p ∈ fs.dirs) (h2 : p ∉ fs.files) :
    ensureDir fs p = .ok (p, fs) := by
  unfold ensureDir isFileP pexists
  simp [h1, h2]

/-- When the target is absent and no ancestor is a plain file, `ensureDir`
creates the directory with all missing ancestors. -/
theorem ensureDir_creates (fs : FSState) (p : PyPath)
    (h1 : pexists fs p = false)
    (h2 : ∀ a ∈ strictAncestors p, a ∉ fs.files) :
    ∃ fs1, ensureDir fs p = .ok (p, fs1) ∧ fs1.files = fs.files ∧ p ∈ fs1.dirs ∧
      (∀ a ∈ strictAncestors p, a ∈ fs1.dirs) ∧ ∀ d ∈ fs.dirs, d ∈ fs1.dirs := by
  have hh := h1
  unfold pexists at hh
  simp only [Bool.or_eq_false_iff, decide_eq_false_iff_not] at hh
  obtain ⟨hnf, hnd⟩ := hh
  have hany : ((strictAncestors p).any fun a => decide (a ∈ fs.files)) = false := by
    simp only [List.any_eq_false, decide_eq_true_eq]
    exact h2
  refine ⟨⟨fs.files,
      p :: (strictAncestors p).filter (fun a => decide (a ∉ fs.dirs)) ++ fs.dirs⟩,
    ?_, rfl, by simp, ?_, ?_⟩
  · unfold ensureDir mkdirParents isFileP
    simp [hnf, h1, hany]
  · intro a ha
    by_cases hd : a ∈ fs.dirs
    · simp [hd]
    · exact List.mem_cons.mpr (Or.inr (List.mem_append.mpr
        (Or.inl (List.mem_filter.mpr ⟨ha, by simp [hd]⟩))))
  · intro d hd
    simp [hd]

/-- Reduction of the resolver on an explicit output string: only the
common validity-check tail touches the filesystem. -/
theorem gv_some_red (home cwd : PyPath) (san : String → String) (fs : FSState)
    (out : String) (title : String) (oa : Bool) :
    get_and_validate_dir_path home cwd san fs (some out) title oa =
      ensureDir fs (resolveDirPath home cwd san (some out) title oa) := by
  unfold get_and_validate_dir_path resolveDirPath
  by_cases ht : startsWithChar out '~' = true <;> simp [ht]

/-- Reduction of the resolver on the default (unset) output. -/
theorem gv_none_red (home cwd : PyPath) (san : String → String) (fs : FSState)
    (title : String) (oa : Bool) :
    get_and_validate_dir_path home cwd san fs none title oa =
      (if isFileP fs (home.child (if oa then "Music" else "Videos")) then
        Except.error (ResolveError.downloadingError ("File found at default directory"))
      else
        match (if !pexists fs (home.child (if oa then "Music" else "Videos")) then
                mkdirPlain fs (home.child (if oa then "Music" else "Videos"))
               else Except.ok fs) with
        | Except.error e => Except.error e
        | Except.ok fsm =>
            ensureDir fsm ((home.child (if oa then "Music" else "Videos")).child
              (san title))) := rfl

/-- One step of the orchestrator loop unfolds the run on a cons. -/
theorem runItems_cons (ft : String) (oa : Bool) (san : String → String)
    (st : Stats) (fs : DirFS) (vid : Item) (rest : List Item) :
    runItems ft oa san st fs (vid :: rest) =
      ⟨(runItems ft oa san (itemStep ft oa san st fs vid).2.1
          (itemStep ft oa san st fs vid).2.2.1 rest).stats,
       (runItems ft oa san (itemStep ft oa san st fs vid).2.1
          (itemStep ft oa san st fs vid).2.2.1 rest).fs,
       (itemStep ft oa san st fs vid).1 ::
         (runItems ft oa san (itemStep ft oa san st fs vid).2.1
            (itemStep ft oa san st fs vid).2.2.1 rest).outcomes,
       (itemStep ft oa san st fs vid).2.2.2 ++
         (runItems ft oa san (itemStep ft oa san st fs vid).2.1
            (itemStep ft oa san st fs vid).2.2.1 rest).effects⟩ := rfl

/-- Newly downloaded bytes never exceed the bytes an outcome adds to the
running total. -/
theorem outcomeNewBytes_le (o : Outcome) : outcomeNewBytes o ≤ outcomeBytes o := by
  cases o <;> simp [outcomeBytes, outcomeNewBytes]

/-- How one loop iteration updates each statistics field. -/
theorem itemStep_stats (ft : String) (oa : Bool) (san : String → String)
    (st : Stats) (fs : DirFS) (vid : Item) :
    (itemStep ft oa san st fs vid).2.1.total_bytes =
      st.total_bytes + outcomeBytes (itemStep ft oa san st fs vid).1 ∧
    (itemStep ft oa san st fs vid).2.1.bytes_downloaded =
      st.bytes_downloaded + outcomeNewBytes (itemStep ft oa san st fs vid).1 ∧
    (itemStep ft oa san st fs vid).2.1.vids_downloaded ≤ st.vids_downloaded + 1 ∧
    (itemStep ft oa san st fs vid).2.1.total_secs =
      st.total_secs + (if countsTowardLength oa vid then vid.length else 0) ∧
    (itemStep ft oa san st fs vid).2.1.age_restricted_urls =
      st.age_restricted_urls ++ (if isAgeRestricted vid then [vid.watch_url] else []) := by
  unfold itemStep countsTowardLength isAgeRestricted
  cases hq : vid.query with
  | ageRestricted => simp [outcomeBytes, outcomeNewBytes]
  | noStream => simp [outcomeBytes, outcomeNewBytes]
  | found s =>
      by_cases ha : (oa && !s.includes_audio_track) = true
      · simp [ha, outcomeBytes, outcomeNewBytes]
      · cases hl : List.lookup (san s.title ++ "." ++ ft) fs <;>
          simp [ha, hl, outcomeBytes, outcomeNewBytes]

/-- Accumulated statistics of a whole run, relative to the starting
accumulator. -/
theorem runItems_stats_general (ft : String) (oa : Bool) (san : String → String) :
    ∀ (l : List Item) (st : Stats) (fs : DirFS),
      (runItems ft oa san st fs l).stats.age_restricted_urls =
        st.age_restricted_urls ++ (l.filter isAgeRestricted).map Item.watch_url ∧
      (runItems ft oa san st fs l).stats.total_secs =
        st.total_secs + ((l.filter (countsTowardLength oa)).map Item.length).sum ∧
      (runItems ft oa san st fs l).stats.vids_downloaded ≤
        st.vids_downloaded + l.length ∧
      (st.bytes_downloaded ≤ st.total_bytes →
        (runItems ft oa san st fs l).stats.bytes_downloaded ≤
          (runItems ft oa san st fs l).stats.total_bytes) := by
  intro l
  induction l with
  | nil => intro st fs; simp [runItems]
  | cons vid rest ih =>
      intro st fs
      rw [runItems_cons]
      obtain ⟨h1, h2, h3, h4, h5⟩ := itemStep_stats ft oa san st fs vid
      obtain ⟨g1, g2, g3, g4⟩ :=
        ih (itemStep ft oa san st fs vid).2.1 (itemStep ft oa san st fs vid).2.2.1
      refine ⟨?_, ?_, ?_, ?_⟩
      · rw [g1, h5]
        by_cases hv : isAgeRestricted vid <;> simp [hv]
      · rw [g2, h4]
        by_cases hv : countsTowardLength oa vid <;> simp [hv] <;> try omega
      · simp only [List.length_cons]
        omega
      · intro hb
        refine g4 ?_
        rw [h1, h2]
        have := outcomeNewBytes_le (itemStep ft oa san st fs vid).1
        omega

/-- Counting one URL in the age-restricted report of a run. -/
theorem count_age_urls : ∀ (l : List Item) (u : String),
    ((l.filter isAgeRestricted).map Item.watch_url).count u =
      (l.filter (fun v => isAgeRestricted v && v.watch_url == u)).length := by
  intro l u
  induction l with
  | nil => simp
  | cons v rest ih =>
      by_cases hv : isAgeRestricted v
      · by_cases hu : v.watch_url = u
        · simp [hv, hu, ih, List.count_cons]
        · simp [hv, hu, ih, List.count_cons]
      · simp [hv, ih]

/-! ## Claim theorems -/

/-- C1 (counterexample): a cancellation signal arriving during the mp3
transcode step (after byte-fetching has begun, before the final file is
finalized) propagates out of the per-item download step with the staging
file `temp_file.mp4` still on disk, so the claim as stated is false. -/
theorem cancellation_transcode_leaves_staging :
    downloadTryBlock ("mp3") CancelPoint.duringTranscode = (⟨true, false⟩, true) ∧
    (downloadTryBlock ("mp3") CancelPoint.duringTranscode).1.tempExists = true := by
  constructor <;> rfl

/-- C1 (amended): if the cancellation signal is raised while stream bytes
are being fetched, neither the staging file nor the final target file
exists after it propagates out of the per-item download step; if it is
raised during the mp3 transcode step, the final target file does not
exist afterward but the fully downloaded staging file remains. -/
theorem cancellation_cleanup (file_type : String) (c : CancelPoint) :
    (c = CancelPoint.duringFetch →
      downloadTryBlock file_type c = (⟨false, false⟩, true)) ∧
    (file_type = "mp3" → c = CancelPoint.duringTranscode →
      downloadTryBlock file_type c = (⟨true, false⟩, true)) := by
  constructor
  · rintro rfl
    unfold downloadTryBlock download_mp3_model download_mp4_model
    by_cases h : file_type = "mp3" <;> simp [h]
  · rintro rfl rfl
    rfl

/-- C1 (witness): the amended cleanup theorem at the mp4 path with a
cancellation during byte fetching. -/
theorem cancellation_cleanup_witness :
    downloadTryBlock ("mp4") CancelPoint.duringFetch = (⟨false, false⟩, true) :=
  (cancellation_cleanup ("mp4") CancelPoint.duringFetch).1 rfl

/-- C2 (code bug evidence): for `output = "~/Music"` with home directory
`/home/user`, the spec's substitution semantics yields
`/home/user/Music`, but the resolver computes `Path.home() / "/Music"`,
which `pathlib` resolves to `/Music`, dropping the home directory (the
code then validates and creates `/Music`). -/
theorem tilde_resolution_drops_home :
    specTildeSubstitute homeFix "~/Music" = ⟨true, ["home", "user", "Music"]⟩ ∧
    resolveDirPath homeFix cwdFix id (some ("~/Music")) "t" false = ⟨true, ["Music"]⟩ ∧
    get_and_validate_dir_path homeFix cwdFix id fsRootOnly (some ("~/Music")) "t" false =
      .ok (⟨true, ["Music"]⟩, ⟨[], [⟨true, ["Music"]⟩, rootFix]⟩) ∧
    (⟨true, ["Music"]⟩ : PyPath) ≠ specTildeSubstitute homeFix "~/Music" := by
  refine ⟨rfl, rfl, rfl, by decide⟩

/-- C3: when the stream query finds a stream, the audio-track check
passes, and the target file is already on disk with size `sz`, the loop
iteration reports `alreadyPresent sz`, adds only that size to
`total_bytes` (and the length to `total_secs`), performs no thumbnail
fetch, no stream-byte fetch, and no write, and leaves the directory
unchanged. -/
theorem already_present_no_refetch (file_type : String) (only_audio : Bool)
    (san : String → String) (st : Stats) (fs : DirFS) (vid : Item)
    (s : VidStream) (sz : Nat)
    (hq : vid.query = StreamQuery.found s)
    (ha : (only_audio && !s.includes_audio_track) = false)
    (hf : fs.lookup (san s.title ++ "." ++ file_type) = some sz) :
    itemStep file_type only_audio san st fs vid =
      (Outcome.alreadyPresent sz,
       { st with total_secs := st.total_secs + vid.length,
                 total_bytes := st.total_bytes + sz },
       fs, []) := by
  unfold itemStep
  rw [hq]
  simp [ha, hf]

/-- C3 (witness): a concrete already-present item. -/
theorem already_present_no_refetch_witness :
    itemStep ("mp3") true id initialStats [("t.mp3", 5)] itemFound =
      (Outcome.alreadyPresent 5,
       { initialStats with total_secs := 125, total_bytes := 5 },
       [("t.mp3", 5)], []) :=
  already_present_no_refetch ("mp3") true id initialStats [("t.mp3", 5)] itemFound
    ⟨"t", true⟩ 5 rfl rfl (by decide)

/-- C4: an age-restricted item never aborts the loop: the iteration
appends the item's watch URL to the report and the run continues on the
remaining items with nothing else changed; over a whole run from the
initial accumulator the final age-restricted list is exactly the watch
URLs of the age-restricted items in order, so each such item's URL is
counted exactly as often as items carrying it occur. -/
theorem age_restricted_never_aborts (ft : String) (oa : Bool) (san : String → String)
    (st : Stats) (fs : DirFS) (vid : Item) (rest : List Item)
    (hq : vid.query = StreamQuery.ageRestricted) :
    (runItems ft oa san st fs (vid :: rest) =
      { runItems ft oa san
          { st with age_restricted_urls := st.age_restricted_urls ++ [vid.watch_url] }
          fs rest with
        outcomes := Outcome.skippedAge ::
          (runItems ft oa san
            { st with age_restricted_urls := st.age_restricted_urls ++ [vid.watch_url] }
            fs rest).outcomes }) ∧
    (∀ (l : List Item) (fs0 : DirFS),
      (runItems ft oa san initialStats fs0 l).stats.age_restricted_urls =
        (l.filter isAgeRestricted).map Item.watch_url) ∧
    (∀ (l : List Item) (fs0 : DirFS),
      ((runItems ft oa san initialStats fs0 l).stats.age_restricted_urls).count
          vid.watch_url =
        (l.filter (fun v => isAgeRestricted v && v.watch_url == vid.watch_url)).length) := by
  refine ⟨?_, ?_, ?_⟩
  · simp [runItems, itemStep, hq]
  · intro l fs0
    have h := (runItems_stats_general ft oa san l initialStats fs0).1
    simpa [initialStats] using h
  · intro l fs0
    have h := (runItems_stats_general ft oa san l initialStats fs0).1
    rw [h]
    simp only [initialStats, List.nil_append]
    exact count_age_urls l vid.watch_url

/-- C4 (witness): one age-restricted item yields exactly its URL. -/
theorem age_restricted_never_aborts_witness :
    (runItems ("mp4") false id initialStats [] [itemAge]).stats.age_restricted_urls =
      ([itemAge].filter isAgeRestricted).map Item.watch_url :=
  (age_restricted_never_aborts ("mp4") false id initialStats [] itemAge [] rfl).2.1
    [itemAge] []

/-- C5: the total accumulated length of a run equals the sum of the
lengths of exactly the items that pass both the stream-match check and
the audio-track check; items skipped for no stream, no audio, or age
restriction contribute nothing. -/
theorem total_length_accounting (ft : String) (oa : Bool) (san : String → String)
    (fs0 : DirFS) (l : List Item) :
    (runItems ft oa san initialStats fs0 l).stats.total_secs =
      ((l.filter (countsTowardLength oa)).map Item.length).sum := by
  have h := (runItems_stats_general ft oa san l initialStats fs0).2.1
  simpa [initialStats] using h

/-- C6 (counterexample): two well-formed filesystems on which the claim
fails: with a plain file at `/a` and output `/a/b`, and with a missing
home directory and unset output, the resolved path does not exist yet
the resolver raises an uncaught OS error instead of creating it. -/
theorem resolver_creation_counterexample :
    WFfs fsFileA ∧
    pexists fsFileA (resolveDirPath homeFix cwdFix id (some ("/a/b")) "t" false) = false ∧
    get_and_validate_dir_path homeFix cwdFix id fsFileA (some ("/a/b")) "t" false =
      .error .osError ∧
    WFfs fsRootOnly ∧
    pexists fsRootOnly (resolveDirPath homeFix cwdFix id none "t" false) = false ∧
    get_and_validate_dir_path homeFix cwdFix id fsRootOnly none "t" false =
      .error .osError := by
  refine ⟨by decide, by decide, rfl, by decide, by decide, rfl⟩

/-- C6 (amended): on a well-formed filesystem, if the resolved path is an
existing plain file the resolver fails with the repository's
`DownloadingError`; if the resolved path does not exist, no ancestor of
it is an existing plain file, and (for unset output) the home directory
exists, the resolver creates the directory with all missing parents and
returns it. -/
theorem resolver_file_check_and_creation (home cwd : PyPath) (san : String → String)
    (fs : FSState) (output : Option String) (title : String) (oa : Bool)
    (hwf : WFfs fs) :
    (resolveDirPath home cwd san output title oa ∈ fs.files →
      ∃ m, get_and_validate_dir_path home cwd san fs output title oa =
        Except.error (ResolveError.downloadingError m)) ∧
    (pexists fs (resolveDirPath home cwd san output title oa) = false →
      (∀ a ∈ strictAncestors (resolveDirPath home cwd san output title oa),
        a ∉ fs.files) →
      (output = none → home ∈ fs.dirs) →
      ∃ fs1,
        get_and_validate_dir_path home cwd san fs output title oa =
          Except.ok (resolveDirPath home cwd san output title oa, fs1) ∧
        resolveDirPath home cwd san output title oa ∈ fs1.dirs ∧
        (∀ a ∈ strictAncestors (resolveDirPath home cwd san output title oa),
          a ∈ fs1.dirs) ∧
        fs1.files = fs.files) := by
  obtain ⟨hwf1, hwf2⟩ := hwf
  cases output with
  | some out =>
      constructor
      · intro hf
        rw [gv_some_red]
        exact ⟨"Output path contains a file", by unfold ensureDir isFileP; simp [hf]⟩
      · intro hne hanc _
        obtain ⟨fs1, he, hff, hp, hanc1, -⟩ := ensureDir_creates fs _ hne hanc
        exact ⟨fs1, by rw [gv_some_red]; exact he, hp, hanc1, hff⟩
  | none =>
      constructor
      · intro hf
        rw [gv_none_red]
        set b := home.child (if oa then "Music" else "Videos") with hb
        have hf2 : b.child (san title) ∈ fs.files := hf
        have hbd : b ∈ fs.dirs := by
          refine hwf2 (b.child (san title)) ?_ b (mem_strictAncestors_child b (san title))
          simp [hf2]
        have hbnf : b ∉ fs.files := fun hc => hwf1 b hc hbd
        have hb1 : isFileP fs b = false := by
          unfold isFileP
          simpa using hbnf
        have hb2 : pexists fs b = true := by
          unfold pexists
          simp [hbd]
        rw [hb1, if_neg (by simp), hb2, if_neg (by simp)]
        refine ⟨"Output path contains a file", ?_⟩
        show ensureDir fs (b.child (san title)) = _
        unfold ensureDir isFileP
        simp [hf2]
      · intro hne hanc hhome
        rw [gv_none_red]
        set b := home.child (if oa then "Music" else "Videos") with hb
        have hne2 : pexists fs (b.child (san title)) = false := hne
        have hanc2 : ∀ a ∈ strictAncestors (b.child (san title)), a ∉ fs.files := hanc
        have hbnf : b ∉ fs.files := hanc2 b (mem_strictAncestors_child b (san title))
        have hb1 : isFileP fs b = false := by
          unfold isFileP
          simpa using hbnf
        rw [hb1, if_neg (by simp)]
        cases hex : pexists fs b with
        | true =>
            rw [if_neg (by simp [hex])]
            obtain ⟨fs1, he, hff, hp, hanc1, -⟩ := ensureDir_creates fs _ hne2 hanc2
            refine ⟨fs1, ?_, hp, hanc1, hff⟩
            show ensureDir fs (b.child (san title)) =
              Except.ok (resolveDirPath home cwd san none title oa, fs1)
            exact he
        | false =>
            rw [if_pos (by simp [hex])]
            have hpar : (⟨b.absolute, b.components.dropLast⟩ : PyPath) = home := by
              rw [hb]
              unfold PyPath.child
              simp
            have hmk : mkdirPlain fs b = .ok ⟨fs.files, b :: fs.dirs⟩ := by
              unfold mkdirPlain
              rw [hex, if_neg (by simp), hpar, if_pos (hhome rfl)]
            rw [hmk]
            have hdpb : b.child (san title) ≠ b := child_ne_self b (san title)
            have hne3 : pexists ⟨fs.files, b :: fs.dirs⟩ (b.child (san title)) = false := by
              unfold pexists at hne2 ⊢
              simp only [Bool.or_eq_false_iff, decide_eq_false_iff_not] at hne2 ⊢
              exact ⟨hne2.1, by simp [hdpb, hne2.2]⟩
            have hanc3 : ∀ a ∈ strictAncestors (b.child (san title)),
                a ∉ (⟨fs.files, b :: fs.dirs⟩ : FSState).files := hanc2
            obtain ⟨fs1, he, hff, hp, hanc1, -⟩ :=
              ensureDir_creates ⟨fs.files, b :: fs.dirs⟩ _ hne3 hanc3
            refine ⟨fs1, ?_, hp, hanc1, by rw [hff]⟩
            show ensureDir (⟨fs.files, b :: fs.dirs⟩ : FSState) (b.child (san title)) =
              Except.ok (resolveDirPath home cwd san none title oa, fs1)
            exact he

/-- C6 (witness): a resolved path that is an existing plain file is
rejected with a `DownloadingError`. -/
theorem resolver_file_check_witness :
    ∃ m, get_and_validate_dir_path homeFix cwdFix id fsFileX (some ("/x")) "t" false =
      Except.error (ResolveError.downloadingError m) :=
  (resolver_file_check_and_creation homeFix cwdFix id fsFileX (some ("/x")) "t" false
    (by decide)).1 (by decide)

/-- C7: destination resolution is idempotent: if a call succeeds with
path `p` and filesystem `fs1`, calling again with the same inputs on
`fs1` succeeds, returns the same path, and leaves `fs1` unchanged. -/
theorem resolver_idempotent (home cwd : PyPath) (san : String → String)
    (fs : FSState) (output : Option String) (title : String) (oa : Bool)
    (p : PyPath) (fs1 : FSState)
    (h : get_and_validate_dir_path home cwd san fs output title oa = .ok (p, fs1)) :
    get_and_validate_dir_path home cwd san fs1 output title oa = .ok (p, fs1) := by
  cases output with
  | some out =>
      rw [gv_some_red] at h
      rw [gv_some_red]
      obtain ⟨hq, hff, hp, hnf, -⟩ :=
        ensureDir_ok fs (resolveDirPath home cwd san (some out) title oa) p fs1 h
      rw [hq]
      exact ensureDir_existing fs1 _ hp (by rw [hff]; exact hnf)
  | none =>
      rw [gv_none_red] at h
      rw [gv_none_red]
      set b := home.child (if oa then "Music" else "Videos") with hb
      cases hfb : isFileP fs b with
      | true =>
          rw [hfb, if_pos rfl] at h
          exact absurd h (by simp)
      | false =>
          rw [hfb, if_neg (by simp)] at h
          have hbnf : b ∉ fs.files := by
            unfold isFileP at hfb
            simpa using hfb
          cases hex : pexists fs b with
          | true =>
              rw [hex] at h
              rw [if_neg (by simp)] at h
              have h2 : ensureDir fs (b.child (san title)) = .ok (p, fs1) := h
              obtain ⟨hq, hff, hp, hnf, hmono⟩ := ensureDir_ok _ _ _ _ h2
              have hbd : b ∈ fs.dirs := by
                unfold pexists at hex
                simp only [Bool.or_eq_true, decide_eq_true_eq] at hex
                rcases hex with hx | hx
                · exact absurd hx hbnf
                · exact hx
              have hb1 : isFileP fs1 b = false := by
                unfold isFileP
                simp only [decide_eq_false_iff_not, hff]
                exact hbnf
              have hb2 : pexists fs1 b = true := by
                unfold pexists
                simp only [Bool.or_eq_true, decide_eq_true_eq]
                exact Or.inr (hmono _ hbd)
              rw [hb1, if_neg (by simp), hb2, if_neg (by simp), hq]
              exact ensureDir_existing fs1 _ hp (by rw [hff]; exact hnf)
          | false =>
              rw [hex] at h
              rw [if_pos (by simp)] at h
              cases hmk : mkdirPlain fs b with
              | error e =>
                  rw [hmk] at h
                  exact absurd
                    (h : (Except.error e : Except ResolveError (PyPath × FSState)) =
                      .ok (p, fs1)) (by simp)
              | ok fsm =>
                  rw [hmk] at h
                  have h2 : ensureDir fsm (b.child (san title)) = .ok (p, fs1) := h
                  obtain ⟨hmf, hmb, hmmono⟩ := mkdirPlain_ok _ _ _ hmk
                  obtain ⟨hq, hff, hp, hnf, hmono⟩ := ensureDir_ok _ _ _ _ h2
                  have hb1 : isFileP fs1 b = false := by
                    unfold isFileP
                    simp only [decide_eq_false_iff_not, hff, hmf]
                    exact hbnf
                  have hb2 : pexists fs1 b = true := by
                    unfold pexists
                    simp only [Bool.or_eq_true, decide_eq_true_eq]
                    exact Or.inr (hmono _ hmb)
                  rw [hb1, if_neg (by simp), hb2, if_neg (by simp), hq]
                  refine ensureDir_existing fs1 _ hp ?_
                  rw [hff]
                  exact hnf

/-- C7 (witness): a second resolution on the filesystem produced by a
successful first call is a no-op returning the same path. -/
theorem resolver_idempotent_witness :
    get_and_validate_dir_path homeFix cwdFix id
        ⟨[], [⟨true, ["d"]⟩, rootFix]⟩ (some ("/d")) "t" false =
      .ok (⟨true, ["d"]⟩, ⟨[], [⟨true, ["d"]⟩, rootFix]⟩) :=
  resolver_idempotent homeFix cwdFix id fsRootOnly (some ("/d")) "t" false
    ⟨true, ["d"]⟩ ⟨[], [⟨true, ["d"]⟩, rootFix]⟩ rfl

/-- C8: the duration formatter decomposes every non-negative second count
into hours, minutes and seconds with
`hours * 3600 + mins * 60 + secs = s`, minutes and seconds in `[0, 59]`,
and the hours part omitted from the short-form output when zero. -/
theorem format_time_spec (s : Nat) :
    (time_decomp s).1 * 3600 + (time_decomp s).2.1 * 60 + (time_decomp s).2.2 = s ∧
    (time_decomp s).2.1 < 60 ∧ (time_decomp s).2.2 < 60 ∧
    ((time_decomp s).1 = 0 →
      format_time s false =
        joinParts (" ")
          ((if (time_decomp s).2.1 ≠ 0 then [toString (time_decomp s).2.1 ++ "m"] else []) ++
           [toString (time_decomp s).2.2 ++ "s"])) := by
  refine ⟨?_, ?_, ?_, ?_⟩
  · simp only [time_decomp]; omega
  · simp only [time_decomp]; omega
  · simp only [time_decomp]; omega
  · intro h0
    simp only [time_decomp] at h0 ⊢
    simp [format_time, time_decomp, h0]

/-- C8 (witness): 125 seconds has zero hours and formats as `2m 5s`. -/
theorem format_time_spec_witness :
    (time_decomp 125).1 = 0 ∧ format_time 125 false = "2m 5s" := by
  have h := (format_time_spec 125).2.2.2 (by decide)
  exact ⟨by decide, by rw [h]; decide⟩

/-- C9: the size formatter displays a value of at least 1 whenever any
unit could (that is, whenever the byte count is at least 1), no larger
supported unit would display a value of at least 1, and the represented
magnitude (displayed value times the unit weight) is monotone in the
byte count across unit boundaries. -/
theorem format_size_spec (b : Nat) :
    (1 ≤ b → 1 ≤ format_size_value b) ∧
    (∀ u, format_size_unit b < u → u ≤ 3 → format_size_value_at b u < 1) ∧
    (∀ c, b ≤ c → format_size_magnitude b ≤ format_size_magnitude c) := by
  have hmag : ∀ n : Nat, format_size_magnitude n = (n : ℚ) := by
    intro n
    unfold format_size_magnitude format_size_value format_size_value_at
    exact div_mul_cancel₀ _ (by positivity)
  have hlow : 1 ≤ b → 1024 ^ format_size_unit b ≤ b := by
    intro h1b
    unfold format_size_unit
    split_ifs with h1 h2 h3 <;> norm_num <;> omega
  have hhigh2 : b < 1024 ^ (format_size_unit b + 1) ∨ format_size_unit b = 3 := by
    unfold format_size_unit
    split_ifs with h1 h2 h3
    · left; norm_num; omega
    · left; norm_num at h2 ⊢; omega
    · left; norm_num at h3 ⊢; omega
    · right; rfl
  refine ⟨?_, ?_, ?_⟩
  · intro h1b
    unfold format_size_value format_size_value_at
    rw [le_div_iff₀ (by positivity), one_mul]
    exact_mod_cast hlow h1b
  · intro u hu hu3
    unfold format_size_value_at
    rw [div_lt_one (by positivity)]
    rcases hhigh2 with h2 | h3
    · have hb : b < 1024 ^ u :=
        lt_of_lt_of_le h2 (Nat.pow_le_pow_right (by norm_num) (by omega))
      exact_mod_cast hb
    · omega
  · intro c hbc
    rw [hmag, hmag]
    exact_mod_cast hbc

/-- C9 (witness): 2048 bytes displays at least 1 in its unit and the
magnitude is monotone from 2048 to 4096. -/
theorem format_size_spec_witness :
    (1 : ℚ) ≤ format_size_value 2048 ∧
    format_size_magnitude 2048 ≤ format_size_magnitude 4096 :=
  ⟨(format_size_spec 2048).1 (by norm_num), (format_size_spec 2048).2.2 4096 (by norm_num)⟩

/-- C10: over every run from the initial accumulator,
`bytes_downloaded ≤ total_bytes` and `vids_downloaded` is at most the
number of items iterated (all fields are naturals, hence non-negative);
per iteration, `total_bytes` grows by exactly the outcome's size (one
file's size at most), `bytes_downloaded` grows by that size only for a
newly downloaded file, and `vids_downloaded` grows by at most one. -/
theorem stats_accumulator_invariant (ft : String) (oa : Bool) (san : String → String) :
    (∀ (l : List Item) (fs0 : DirFS),
      (runItems ft oa san initialStats fs0 l).stats.bytes_downloaded ≤
        (runItems ft oa san initialStats fs0 l).stats.total_bytes ∧
      (runItems ft oa san initialStats fs0 l).stats.vids_downloaded ≤ l.length) ∧
    (∀ (st : Stats) (fs : DirFS) (vid : Item),
      (itemStep ft oa san st fs vid).2.1.total_bytes =
        st.total_bytes + outcomeBytes (itemStep ft oa san st fs vid).1 ∧
      (itemStep ft oa san st fs vid).2.1.bytes_downloaded =
        st.bytes_downloaded + outcomeNewBytes (itemStep ft oa san st fs vid).1 ∧
      (itemStep ft oa san st fs vid).2.1.vids_downloaded ≤ st.vids_downloaded + 1) := by
  constructor
  · intro l fs0
    obtain ⟨-, -, h3, h4⟩ := runItems_stats_general ft oa san l initialStats fs0
    exact ⟨h4 (by simp [initialStats]), by simpa [initialStats] using h3⟩
  · intro st fs vid
    obtain ⟨h1, h2, h3, -, -⟩ := itemStep_stats ft oa san st fs vid
    exact ⟨h1, h2, h3⟩
